import Mathlib

/-!
Verification of the lexical URL feature extraction, threat scoring, historical
blending and pattern-store update logic of the url-scanner edge function
(src/supabase/functions/url-scanner/index.ts).

Floats in the source are modelled as exact numbers: probabilities and
confidence values as rationals, the Shannon entropy as a real number.  The
feature record is parametrised by the numeric type of its entropy field so
that the scorer can be stated over any linear ordered field.
-/

namespace URLScanner

/-- The feature record produced by extractMLFeatures, parametrised by the
numeric type of the entropy field. -/
structure UrlFeatures (α : Type) where
  urlLength : ℕ
  numDots : ℕ
  numHyphens : ℕ
  numDigits : ℕ
  numSpecialChars : ℕ
  hasIpAddress : Bool
  hasSuspiciousKeywords : Bool
  entropyScore : α
  subdomainCount : ℕ
  pathDepth : ℕ
deriving DecidableEq

/-- The JS regex class d, i.e. the ASCII digits 0-9. -/
def isDigitChar (c : Char) : Bool := '0' ≤ c && c ≤ '9'

/-- ASCII letters, as matched by the character class a-zA-Z. -/
def isAlphaChar (c : Char) : Bool := ('a' ≤ c && c ≤ 'z') || ('A' ≤ c && c ≤ 'Z')

/-- The character class a-zA-Z0-9.- whose complement the source counts as
special characters. -/
def isUrlSafeChar (c : Char) : Bool := isAlphaChar c || isDigitChar c || c = '.' || c = '-'

/-- Number of leading ASCII digits of a character list. -/
def leadingDigits : List Char → ℕ
  | [] => 0
  | c :: cs => if isDigitChar c then leadingDigits cs + 1 else 0

/-- One quad segment of the IPv4 regex: match 1 to 3 digits followed by a dot
at the head of the list and return the remainder.  Because a digit can never
match the literal dot, the backtracking regex engine accepts here exactly when
the full run of leading digits has length 1 to 3 and is followed by a dot. -/
def quadSeg (cs : List Char) : Option (List Char) :=
  let r := leadingDigits cs
  if 1 ≤ r ∧ r ≤ 3 then
    match cs.drop r with
    | '.' :: rest => some rest
    | _ => none
  else none

/-- Whether the regex d{1,3}.d{1,3}.d{1,3}.d{1,3} matches at the head of the
list (the final run only needs at least one digit for a match to exist). -/
def quadAt (cs : List Char) : Bool :=
  match quadSeg cs with
  | none => false
  | some r1 =>
    match quadSeg r1 with
    | none => false
    | some r2 =>
      match quadSeg r2 with
      | none => false
      | some r3 => 1 ≤ leadingDigits r3

/-- The unanchored test of the IPv4 dotted-quad regex on a string: some suffix
matches at its head.  This is the condition the source assigns to
hasIpAddress, evaluated on the FULL url string. -/
def hasDottedQuad (s : String) : Bool := s.toList.tails.any quadAt

/-- The fixed keyword list of the source. -/
def suspiciousKeywords : List String :=
  ["login", "verify", "account", "update", "secure", "banking", "password",
   "confirm", "suspended", "locked", "urgent"]

/-- Case-insensitive substring test used for the keyword feature: the keyword
occurs in the lowercased url. -/
def keywordHits (url : String) (k : String) : Bool :=
  decide (k.toList <:+: url.toList.map Char.toLower)

/-- JS String.prototype.split with a single-character separator, on character
lists: n separators yield n + 1 (possibly empty) pieces. -/
def splitOnChar (sep : Char) : List Char → List (List Char)
  | [] => [[]]
  | c :: cs =>
    if c = sep then [] :: splitOnChar sep cs
    else
      match splitOnChar sep cs with
      | [] => [[c]]
      | h :: t => (c :: h) :: t

/-- The substring of the input before its first slash, i.e. url.split('/')[0],
the fallback hostname of the source. -/
def fallbackHost (url : String) : String :=
  String.mk ((splitOnChar '/' url.toList).headD [])

/-- The hostname computed by extractMLFeatures, parametrised by the host
parser of the runtime (modelling new URL(u).hostname, none on a parse
failure): parse the url, prefixed with https:// unless it starts with "http",
and fall back to the substring before the first slash when parsing fails. -/
def hostnameOf (parseHost : String → Option String) (url : String) : String :=
  match parseHost (if "http".toList <+: url.toList then url else "https://" ++ url) with
  | some h => h
  | none => fallbackHost url

/-- Split a character list at the first occurrence of the scheme separator
"://", returning the parts before and after it. -/
def breakAtSchemeSep : List Char → Option (List Char × List Char)
  | ':' :: '/' :: '/' :: rest => some ([], rest)
  | c :: cs =>
    match breakAtSchemeSep cs with
    | some (a, b) => some (c :: a, b)
    | none => none
  | [] => none

/-- Modelled from the runtime's WHATWG URL constructor (new URL(s).hostname),
which is not part of the repository: accept scheme://authority..., where the
scheme is alphabetic, the authority ends at the first slash, question mark or
hash, userinfo before an at sign is dropped, an optional numeric port after a
colon is dropped, and the host must be a nonempty word of letters, digits,
dots and hyphens; the host is lowercased.  This covers the simple concrete
URLs used in this development. -/
def jsHostname (s : String) : Option String :=
  match breakAtSchemeSep s.toList with
  | none => none
  | some (scheme, rest) =>
    if scheme ≠ [] ∧ scheme.all isAlphaChar then
      let authority := rest.takeWhile (fun c => c ≠ '/' && c ≠ '?' && c ≠ '#')
      let afterAt := (authority.reverse.takeWhile (fun c => c ≠ '@')).reverse
      let hostPart := afterAt.takeWhile (fun c => c ≠ ':')
      let portPart := (afterAt.dropWhile (fun c => c ≠ ':')).drop 1
      if hostPart ≠ [] ∧ hostPart.all (fun c => isAlphaChar c || isDigitChar c || c = '.' || c = '-')
          ∧ portPart.all isDigitChar then
        some (String.mk (hostPart.map Char.toLower))
      else none
    else none

/-- Character frequency of c in s, as a real number in [0,1]: count divided by
length. -/
noncomputable def charFreq (s : String) (c : Char) : ℝ :=
  (s.toList.count c : ℝ) / (s.toList.length : ℝ)

/-- calculateEntropy of the source: the Shannon entropy in bits of the
character frequency distribution of the full string; the loop that subtracts
p * log2 p for every distinct character is the negated sum below. -/
noncomputable def calculateEntropy (s : String) : ℝ :=
  -∑ c ∈ s.toList.toFinset, charFreq s c * Real.logb 2 (charFreq s c)

/-- extractMLFeatures of the source, parametrised by the runtime host parser.
Nat subtraction renders the Math.max(0, x - k) of the source. -/
noncomputable def extractMLFeatures (parseHost : String → Option String)
    (url : String) : UrlFeatures ℝ :=
  let hostname := hostnameOf parseHost url
  { urlLength := url.length
    numDots := url.toList.count '.'
    numHyphens := url.toList.count '-'
    numDigits := (url.toList.filter isDigitChar).length
    numSpecialChars := (url.toList.filter (fun c => !(isUrlSafeChar c))).length
    hasIpAddress := hasDottedQuad url
    hasSuspiciousKeywords := suspiciousKeywords.any (keywordHits url)
    entropyScore := calculateEntropy url
    subdomainCount := (splitOnChar '.' hostname.toList).length - 2
    pathDepth := (splitOnChar '/' url.toList).length - 3 }

/-- calculateMLThreatScore of the source: the ten additive rules, summed and
clamped to at most 100. -/
def calculateMLThreatScore {α : Type} [LinearOrderedField α]
    (features : UrlFeatures α) : ℕ :=
  min 100 ((if 75 < features.urlLength then 15 else 0)
    + (if 100 < features.urlLength then 10 else 0)
    + (if 2 < features.numHyphens then 10 else 0)
    + (if 8 < features.numDigits then 10 else 0)
    + (if 5 < features.numSpecialChars then 15 else 0)
    + (if features.hasIpAddress then 25 else 0)
    + (if features.hasSuspiciousKeywords then 20 else 0)
    + (if (4.5 : α) < features.entropyScore then 15 else 0)
    + (if 3 < features.subdomainCount then 15 else 0)
    + (if 5 < features.pathDepth then 10 else 0))

/-- The sum of the eight rule contributions that do not depend on the url
length (used to state when the clamp is inactive). -/
def nonLengthScore {α : Type} [LinearOrderedField α] (features : UrlFeatures α) : ℕ :=
  (if 2 < features.numHyphens then 10 else 0)
    + (if 8 < features.numDigits then 10 else 0)
    + (if 5 < features.numSpecialChars then 15 else 0)
    + (if features.hasIpAddress then 25 else 0)
    + (if features.hasSuspiciousKeywords then 20 else 0)
    + (if (4.5 : α) < features.entropyScore then 15 else 0)
    + (if 3 < features.subdomainCount then 15 else 0)
    + (if 5 < features.pathDepth then 10 else 0)

/-- The category pushes of performMLClassification, in source order:
IP-based URL, Suspicious keywords, Abnormally long URL, Excessive subdomains,
High entropy. -/
def computePredictedCategories {α : Type} [LinearOrderedField α]
    (f : UrlFeatures α) : List String :=
  (if f.hasIpAddress then ["IP-based URL"] else [])
    ++ (if f.hasSuspiciousKeywords then ["Suspicious keywords"] else [])
    ++ (if 100 < f.urlLength then ["Abnormally long URL"] else [])
    ++ (if 3 < f.subdomainCount then ["Excessive subdomains"] else [])
    ++ (if (4.5 : α) < f.entropyScore then ["High entropy"] else [])

/-- A row of the ml_patterns table. -/
structure MLPatternRow (α : Type) where
  url_pattern : String
  pattern_type : String
  confidence_score : ℚ
  detection_count : ℕ
  last_detected : ℕ
  features : UrlFeatures α

/-- checkHistoricalPatterns of the source: return the query result, and null
for a failed lookup (the try/catch returning null). -/
def checkHistoricalPatterns {α : Type}
    (resp : Except Unit (Option (MLPatternRow α))) : Option (MLPatternRow α) :=
  match resp with
  | Except.ok d => d
  | Except.error _ => none

/-- The pattern type derived from the blended probability in
updateMLPatterns. -/
def derivePatternType (threatProbability : ℚ) : String :=
  if (0.7 : ℚ) < threatProbability then "phishing"
  else if (0.4 : ℚ) < threatProbability then "suspicious"
  else "legitimate"

/-- updateMLPatterns of the source, as the row written by the upsert: update
the existing row when one exists, insert a fresh row otherwise. -/
def updateMLPatterns {α : Type} (domain : String) (features : UrlFeatures α)
    (threatProbability : ℚ) (existing : Option (MLPatternRow α)) (now : ℕ) :
    MLPatternRow α :=
  match existing with
  | some e =>
    { e with
      detection_count := e.detection_count + 1
      last_detected := now
      confidence_score := (e.confidence_score + threatProbability) / 2
      features := features }
  | none =>
    { url_pattern := domain
      pattern_type := derivePatternType threatProbability
      confidence_score := threatProbability
      detection_count := 1
      last_detected := now
      features := features }

/-- The classification record returned by performMLClassification. -/
structure MLClassification where
  isPhishing : Bool
  confidence : ℚ
  threatProbability : ℚ
  predictedCategories : List String
deriving DecidableEq

/-- The historical blending step of performMLClassification (its lines between
the lookup and the return): adjust the probability and confidence with the
historical record when present, append the known-phishing category, and decide
isPhishing by the strict 0.5 threshold. -/
def blend {α : Type} (threatProbability : ℚ) (cats : List String)
    (hist : Option (MLPatternRow α)) : MLClassification :=
  match hist with
  | none =>
    { isPhishing := decide ((0.5 : ℚ) < threatProbability)
      confidence := 0.75
      threatProbability := threatProbability
      predictedCategories := cats }
  | some h =>
    { isPhishing := decide ((0.5 : ℚ) < (threatProbability + h.confidence_score) / 2)
      confidence := min 0.95 (0.75 + 0.15)
      threatProbability := (threatProbability + h.confidence_score) / 2
      predictedCategories :=
        cats ++ (if h.pattern_type = "phishing" then ["Known phishing pattern"] else []) }

/-- performMLClassification of the source: extract features, score, derive the
raw probability and categories, blend with the historical lookup result.  The
pattern-store write is a fire-and-forget side effect whose outcome updResp is
taken as a parameter so that independence from it can be stated. -/
noncomputable def performMLClassification (parseHost : String → Option String)
    (url : String) (histResp : Except Unit (Option (MLPatternRow ℝ)))
    (updResp : Except Unit Unit) : MLClassification :=
  let features := extractMLFeatures parseHost url
  let threatScore := calculateMLThreatScore features
  let threatProbability : ℚ := (threatScore : ℚ) / 100
  let cats := computePredictedCategories features
  let historicalPattern := checkHistoricalPatterns histResp
  match updResp with
  | Except.ok _ => blend threatProbability cats historicalPattern
  | Except.error _ => blend threatProbability cats historicalPattern

/-- The pathDepth described by claim C7, following the spec's words: the
number of slash-separated segments of the input after scheme and host are
removed, minus 2, floored at 0 (Nat subtraction floors at 0). -/
def specPathDepth (schemeAndHostRemoved : String) : ℕ :=
  (splitOnChar '/' schemeAndHostRemoved.toList).length - 2

/-- A rational feature set on which every scoring rule fires (length 101). -/
def allFireFeatures : UrlFeatures ℚ :=
  { urlLength := 101, numDots := 0, numHyphens := 3, numDigits := 9,
    numSpecialChars := 6, hasIpAddress := true, hasSuspiciousKeywords := true,
    entropyScore := 5, subdomainCount := 4, pathDepth := 6 }

/-- Every non-length rule fires, but the length rules do not (length 74). -/
def allFireBase74 : UrlFeatures ℚ := { allFireFeatures with urlLength := 74 }

/-- A feature set firing no rule except (possibly) the length rules. -/
def quietFeatures99 : UrlFeatures ℚ :=
  { urlLength := 99, numDots := 0, numHyphens := 0, numDigits := 0,
    numSpecialChars := 0, hasIpAddress := false, hasSuspiciousKeywords := false,
    entropyScore := 0, subdomainCount := 0, pathDepth := 0 }

/-- Features firing the IP rule and the long-URL rule only. -/
def longIpFeatures : UrlFeatures ℚ :=
  { urlLength := 150, numDots := 0, numHyphens := 0, numDigits := 0,
    numSpecialChars := 0, hasIpAddress := true, hasSuspiciousKeywords := false,
    entropyScore := 0, subdomainCount := 0, pathDepth := 0 }

/-- A concrete historical pattern row of phishing type with confidence 0.4. -/
def sampleRowQ : MLPatternRow ℚ :=
  { url_pattern := "example.com", pattern_type := "phishing",
    confidence_score := 0.4, detection_count := 1, last_detected := 0,
    features := longIpFeatures }

end URLScanner

namespace URLScanner

/-! ## Helper lemmas -/

theorem score_le_100 {α : Type} [LinearOrderedField α] (f : UrlFeatures α) :
    calculateMLThreatScore f ≤ 100 := min_le_left _ _

theorem nonLengthScore_update {α : Type} [LinearOrderedField α]
    (f : UrlFeatures α) (L : ℕ) :
    nonLengthScore { f with urlLength := L } = nonLengthScore f := rfl

theorem score_split {α : Type} [LinearOrderedField α] (f : UrlFeatures α) :
    calculateMLThreatScore f =
      min 100 ((if 75 < f.urlLength then 15 else 0)
        + (if 100 < f.urlLength then 10 else 0) + nonLengthScore f) := by
  unfold calculateMLThreatScore nonLengthScore
  congr 1
  ring

theorem allFire_entropy : (4.5 : ℚ) < allFireFeatures.entropyScore := by
  norm_num [allFireFeatures]

theorem quiet_nonLengthScore : nonLengthScore quietFeatures99 = 0 := by
  norm_num [nonLengthScore, quietFeatures99]

theorem rat_07_lt_08 : (0.7 : ℚ) < 0.8 := by norm_num

theorem charFreq_nonneg (s : String) (c : Char) : 0 ≤ charFreq s c := by
  unfold charFreq; positivity

theorem charFreq_le_one (s : String) (c : Char) : charFreq s c ≤ 1 := by
  unfold charFreq
  rcases eq_or_ne s.toList [] with h | h
  · rw [h]
    simp
  · rw [div_le_one (by exact_mod_cast List.length_pos.mpr h)]
    exact_mod_cast s.toList.count_le_length c

theorem charFreq_pos (s : String) (c : Char) (hc : c ∈ s.toList.toFinset) :
    0 < charFreq s c := by
  unfold charFreq
  have hmem : c ∈ s.toList := List.mem_toFinset.mp hc
  have hlen : 0 < s.toList.length := List.length_pos.mpr (List.ne_nil_of_mem hmem)
  apply div_pos
  · exact_mod_cast List.count_pos_iff.mpr hmem
  · exact_mod_cast hlen

theorem sum_charFreq (s : String) (h : s.toList ≠ []) :
    ∑ c ∈ s.toList.toFinset, charFreq s c = 1 := by
  unfold charFreq
  rw [← Finset.sum_div]
  have hlen : (0 : ℝ) < (s.toList.length : ℝ) := by
    exact_mod_cast List.length_pos.mpr h
  rw [div_eq_one_iff_eq (ne_of_gt hlen)]
  norm_cast
  simpa using Multiset.toFinset_sum_count_eq (↑s.toList)

theorem calculateEntropy_nonneg (s : String) : 0 ≤ calculateEntropy s := by
  unfold calculateEntropy
  rw [neg_nonneg]
  apply Finset.sum_nonpos
  intro c hc
  have h1 := charFreq_pos s c hc
  have h2 := charFreq_le_one s c
  have hlog : Real.logb 2 (charFreq s c) ≤ 0 :=
    Real.logb_nonpos (by norm_num) (le_of_lt h1) h2
  exact mul_nonpos_iff.mpr (Or.inl ⟨le_of_lt h1, hlog⟩)

theorem concaveOn_logb2 : ConcaveOn ℝ (Set.Ioi 0) (Real.logb 2) := by
  have h : Real.logb 2 = (Real.log 2)⁻¹ • Real.log := by
    funext x
    simp [Real.logb, smul_eq_mul, div_eq_inv_mul]
  rw [h]
  exact (strictConcaveOn_log_Ioi.concaveOn).smul (by positivity)

theorem calculateEntropy_le_logb_card (s : String) (h : s.toList ≠ []) :
    calculateEntropy s ≤ Real.logb 2 (s.toList.toFinset.card : ℝ) := by
  unfold calculateEntropy
  have step1 : -∑ c ∈ s.toList.toFinset, charFreq s c * Real.logb 2 (charFreq s c)
      = ∑ c ∈ s.toList.toFinset, charFreq s c * Real.logb 2 (charFreq s c)⁻¹ := by
    rw [← Finset.sum_neg_distrib]
    apply Finset.sum_congr rfl
    intro c _
    rw [Real.logb_inv]
    ring
  rw [step1]
  have jensen := concaveOn_logb2.le_map_sum
    (t := s.toList.toFinset) (w := charFreq s) (p := fun c => (charFreq s c)⁻¹)
    (fun c _ => charFreq_nonneg s c) (sum_charFreq s h)
    (fun c hc => Set.mem_Ioi.mpr (inv_pos.mpr (charFreq_pos s c hc)))
  simp only [smul_eq_mul] at jensen
  have hsum : ∑ c ∈ s.toList.toFinset, charFreq s c * (charFreq s c)⁻¹
      = (s.toList.toFinset.card : ℝ) := by
    rw [Finset.card_eq_sum_ones, Nat.cast_sum]
    apply Finset.sum_congr rfl
    intro c hc
    rw [mul_inv_cancel₀ (ne_of_gt (charFreq_pos s c hc))]
    norm_num
  rw [hsum] at jensen
  exact jensen

theorem toFinset_card_lt_of_not_nodup (l : List Char) (h : ¬ l.Nodup) :
    l.toFinset.card < l.length := by
  rcases lt_or_eq_of_le l.toFinset_card_le with hlt | heq
  · exact hlt
  · exfalso
    apply h
    have hdl : l.dedup.length = l.length := by
      rw [← List.card_toFinset]
      exact heq
    have hde : l.dedup = l := (List.dedup_sublist l).eq_of_length hdl
    rw [← hde]
    exact List.nodup_dedup l

theorem calculateEntropy_lt (s : String) (hne : s ≠ "") (hdup : ¬ s.toList.Nodup) :
    calculateEntropy s < Real.logb 2 (s.length : ℝ) := by
  have hnil : s.toList ≠ [] := by
    intro hl
    apply hne
    cases s with
    | mk data =>
      simp only [String.toList] at hl
      subst hl
      rfl
  have hcardpos : 0 < s.toList.toFinset.card := by
    rcases List.exists_mem_of_ne_nil _ hnil with ⟨c, hc⟩
    exact Finset.card_pos.mpr ⟨c, List.mem_toFinset.mpr hc⟩
  have hcardlt : s.toList.toFinset.card < s.toList.length :=
    toFinset_card_lt_of_not_nodup _ hdup
  have hlen : s.length = s.toList.length := rfl
  calc calculateEntropy s ≤ Real.logb 2 (s.toList.toFinset.card : ℝ) :=
        calculateEntropy_le_logb_card s hnil
    _ < Real.logb 2 (s.length : ℝ) := by
        rw [hlen]
        exact Real.logb_lt_logb (by norm_num) (by exact_mod_cast hcardpos)
          (by exact_mod_cast hcardlt)

theorem calculateEntropy_empty : calculateEntropy "" = 0 := by
  unfold calculateEntropy
  simp [String.toList]

end URLScanner

namespace URLScanner

/-! ## Claim theorems -/

/-- C1: for every feature set, calculateMLThreatScore returns the sum of the
fixed independent rule contributions (15 for length over 75, 10 more for
length over 100, 10 for more than 2 hyphens, 10 for more than 8 digits, 15
for more than 5 special characters, 25 for an IP address, 20 for a suspicious
keyword, 15 for entropy over 4.5, 15 for more than 3 subdomains, 10 for path
depth over 5), clamped to at most 100 after summing and never negative, so
the result lies in [0,100] even when every rule fires simultaneously. -/
theorem C1_score_clamped_sum_in_range {α : Type} [LinearOrderedField α]
    (f : UrlFeatures α) :
    calculateMLThreatScore f
        = min 100 ((if 75 < f.urlLength then 15 else 0)
          + (if 100 < f.urlLength then 10 else 0)
          + (if 2 < f.numHyphens then 10 else 0)
          + (if 8 < f.numDigits then 10 else 0)
          + (if 5 < f.numSpecialChars then 15 else 0)
          + (if f.hasIpAddress then 25 else 0)
          + (if f.hasSuspiciousKeywords then 20 else 0)
          + (if (4.5 : α) < f.entropyScore then 15 else 0)
          + (if 3 < f.subdomainCount then 15 else 0)
          + (if 5 < f.pathDepth then 10 else 0))
    ∧ 0 ≤ calculateMLThreatScore f
    ∧ calculateMLThreatScore f ≤ 100
    ∧ (75 < f.urlLength → 100 < f.urlLength → 2 < f.numHyphens → 8 < f.numDigits →
        5 < f.numSpecialChars → f.hasIpAddress = true → f.hasSuspiciousKeywords = true →
        (4.5 : α) < f.entropyScore → 3 < f.subdomainCount → 5 < f.pathDepth →
        calculateMLThreatScore f = 100) := by
  refine ⟨rfl, Nat.zero_le _, score_le_100 f, ?_⟩
  intro h1 h2 h3 h4 h5 h6 h7 h8 h9 h10
  simp [calculateMLThreatScore, h1, h2, h3, h4, h5, h6, h7, h8, h9, h10]

/-- Witness for C1 at the all-firing rational feature set: every rule
condition holds and the clamped score is exactly 100. -/
theorem C1_witness :
    (75 < allFireFeatures.urlLength ∧ 100 < allFireFeatures.urlLength
      ∧ 2 < allFireFeatures.numHyphens ∧ 8 < allFireFeatures.numDigits
      ∧ 5 < allFireFeatures.numSpecialChars ∧ allFireFeatures.hasIpAddress = true
      ∧ allFireFeatures.hasSuspiciousKeywords = true
      ∧ (4.5 : ℚ) < allFireFeatures.entropyScore
      ∧ 3 < allFireFeatures.subdomainCount ∧ 5 < allFireFeatures.pathDepth)
    ∧ calculateMLThreatScore allFireFeatures = 100 :=
  ⟨⟨by decide, by decide, by decide, by decide, by decide, by decide, by decide,
    allFire_entropy, by decide, by decide⟩,
   (C1_score_clamped_sum_in_range allFireFeatures).2.2.2 (by decide) (by decide)
     (by decide) (by decide) (by decide) (by decide) (by decide) allFire_entropy
     (by decide) (by decide)⟩

/-- C2: the blending step satisfies the spec's law — with no historical
record the probability passes through unchanged and confidence is 0.75; with
a record the probability is the average with the stored confidence, the
confidence is 0.90, and the known-phishing category is appended exactly when
the stored pattern type is phishing; isPhishing holds exactly when the
blended probability strictly exceeds 0.5, so equality with 0.5 yields
false. -/
theorem C2_blend_law {α : Type} (p : ℚ) (cats : List String) :
    ((blend (α := α) p cats none).threatProbability = p
      ∧ (blend (α := α) p cats none).confidence = 0.75
      ∧ (blend (α := α) p cats none).predictedCategories = cats)
    ∧ (∀ h : MLPatternRow α,
        (blend p cats (some h)).threatProbability = (p + h.confidence_score) / 2
        ∧ (blend p cats (some h)).confidence = 0.90
        ∧ ((blend p cats (some h)).predictedCategories
              = cats ++ ["Known phishing pattern"] ↔ h.pattern_type = "phishing")
        ∧ (h.pattern_type ≠ "phishing" → (blend p cats (some h)).predictedCategories = cats))
    ∧ (∀ hist : Option (MLPatternRow α),
        ((blend p cats hist).isPhishing = true
          ↔ (0.5 : ℚ) < (blend p cats hist).threatProbability))
    ∧ (∀ hist : Option (MLPatternRow α),
        (blend p cats hist).threatProbability = 0.5
          → (blend p cats hist).isPhishing = false) := by
  refine ⟨⟨rfl, rfl, rfl⟩, ?_, ?_, ?_⟩
  · intro h
    refine ⟨rfl, by norm_num [blend], ?_, ?_⟩
    · by_cases hp : h.pattern_type = "phishing" <;> simp [blend, hp]
    · intro hp; simp [blend, hp]
  · intro hist
    cases hist <;> simp [blend]
  · intro hist heq
    cases hist <;>
    · simp only [blend] at heq ⊢
      rw [heq]
      simp

/-- Witness for C2 at the spec's own example: blending probability 0.8
against a stored phishing row with confidence 0.4 averages the two values and
raises the confidence to 0.90. -/
theorem C2_witness :
    (blend (α := ℚ) 0.8 [] (some sampleRowQ)).threatProbability
        = (0.8 + sampleRowQ.confidence_score) / 2
    ∧ (blend (α := ℚ) 0.8 [] (some sampleRowQ)).confidence = 0.90
    ∧ ((blend (α := ℚ) 0.8 [] (some sampleRowQ)).predictedCategories
        = [] ++ ["Known phishing pattern"] ↔ sampleRowQ.pattern_type = "phishing") :=
  ⟨((C2_blend_law 0.8 []).2.1 sampleRowQ).1,
   ((C2_blend_law 0.8 []).2.1 sampleRowQ).2.1,
   ((C2_blend_law 0.8 []).2.1 sampleRowQ).2.2.1⟩

/-- C3: the pattern-store upsert derives the pattern type as phishing above
0.7, suspicious above 0.4 (and not phishing), legitimate otherwise; on an
existing row it increments the detection count, sets the last-detected time,
averages the stored confidence with the blended probability and overwrites
the features; on a missing row it inserts detection count 1 and confidence
equal to the blended probability. -/
theorem C3_upsert_law {α : Type} (domain : String) (fts : UrlFeatures α)
    (b : ℚ) (now : ℕ) :
    ((0.7 : ℚ) < b → derivePatternType b = "phishing")
    ∧ (¬ (0.7 : ℚ) < b → (0.4 : ℚ) < b → derivePatternType b = "suspicious")
    ∧ (¬ (0.7 : ℚ) < b → ¬ (0.4 : ℚ) < b → derivePatternType b = "legitimate")
    ∧ (∀ e : MLPatternRow α,
        updateMLPatterns domain fts b (some e) now =
          { e with detection_count := e.detection_count + 1, last_detected := now,
                   confidence_score := (e.confidence_score + b) / 2, features := fts })
    ∧ (updateMLPatterns domain fts b none now =
        { url_pattern := domain, pattern_type := derivePatternType b,
          confidence_score := b, detection_count := 1, last_detected := now,
          features := fts }) := by
  refine ⟨?_, ?_, ?_, fun e => rfl, rfl⟩
  · intro h; simp [derivePatternType, h]
  · intro h1 h2; simp [derivePatternType, h1, h2]
  · intro h1 h2; simp [derivePatternType, h1, h2]

end URLScanner

namespace URLScanner

/-- Witness for C3: probability 0.8 exceeds the 0.7 threshold and derives the
phishing type, and updating the existing sample row increments its detection
count by one. -/
theorem C3_witness :
    ((0.7 : ℚ) < 0.8 ∧ derivePatternType 0.8 = "phishing")
    ∧ (updateMLPatterns "scan.example" longIpFeatures 0.4 (some sampleRowQ) 7).detection_count
        = sampleRowQ.detection_count + 1 :=
  ⟨⟨rat_07_lt_08, (C3_upsert_law "scan.example" longIpFeatures 0.8 7).1 rat_07_lt_08⟩,
   by rw [(C3_upsert_law "scan.example" longIpFeatures 0.4 7).2.2.2.1 sampleRowQ]⟩

/-- C4 counterexample: on a feature set firing both the IP rule and the
long-URL rule, the code emits the categories in the order IP-based URL then
Abnormally long URL, not in the spec's table order of Abnormally long URL
before IP-based URL. -/
theorem C4_counterexample :
    computePredictedCategories longIpFeatures = ["IP-based URL", "Abnormally long URL"]
    ∧ computePredictedCategories longIpFeatures ≠ ["Abnormally long URL", "IP-based URL"] := by
  constructor
  · norm_num [computePredictedCategories, longIpFeatures]
  · norm_num [computePredictedCategories, longIpFeatures]
    decide

/-- C4 amended: the category list contains exactly the labels of the five
labelled rules that fired, but in the code's evaluation order — IP-based URL,
Suspicious keywords, Abnormally long URL, Excessive subdomains, High
entropy — of which the emitted list is always a sublist. -/
theorem C4_amended {α : Type} [LinearOrderedField α] (f : UrlFeatures α) :
    ("IP-based URL" ∈ computePredictedCategories f ↔ f.hasIpAddress = true)
    ∧ ("Suspicious keywords" ∈ computePredictedCategories f ↔ f.hasSuspiciousKeywords = true)
    ∧ ("Abnormally long URL" ∈ computePredictedCategories f ↔ 100 < f.urlLength)
    ∧ ("Excessive subdomains" ∈ computePredictedCategories f ↔ 3 < f.subdomainCount)
    ∧ ("High entropy" ∈ computePredictedCategories f ↔ (4.5 : α) < f.entropyScore)
    ∧ List.Sublist (computePredictedCategories f)
        ["IP-based URL", "Suspicious keywords", "Abnormally long URL",
         "Excessive subdomains", "High entropy"] := by
  unfold computePredictedCategories
  split_ifs <;> simp_all <;> decide

/-- C5: calculateEntropy is the character-level Shannon entropy in bits of
the frequency distribution of the full string; it is 0 on the empty string,
nonnegative on every string, and strictly below log2 of the length on every
nonempty string with a repeated character. -/
theorem C5_entropy_properties (s : String) :
    calculateEntropy s
        = -∑ c ∈ s.toList.toFinset, charFreq s c * Real.logb 2 (charFreq s c)
    ∧ calculateEntropy "" = 0
    ∧ 0 ≤ calculateEntropy s
    ∧ (s ≠ "" → ¬ s.toList.Nodup →
        calculateEntropy s < Real.logb 2 (s.length : ℝ)) :=
  ⟨rfl, calculateEntropy_empty, calculateEntropy_nonneg s, calculateEntropy_lt s⟩

/-- Witness for C5 at the string aab, which is nonempty and has a repeated
character, so its entropy is strictly below log2 of its length. -/
theorem C5_witness :
    ("aab" : String) ≠ "" ∧ ¬ ("aab".toList.Nodup)
    ∧ calculateEntropy "aab" < Real.logb 2 (("aab".length : ℕ) : ℝ) :=
  ⟨by decide, by decide, (C5_entropy_properties "aab").2.2.2 (by decide) (by decide)⟩

end URLScanner

namespace URLScanner

/-- C6 counterexample: for an input whose only dotted quad sits in the path,
the code still sets hasIpAddress, although the parsed host is example.com and
contains no dotted-quad — contradicting the claim that the flag tracks the
host component only. -/
theorem C6_counterexample :
    (extractMLFeatures jsHostname "https://example.com/192.168.1.1").hasIpAddress = true
    ∧ hostnameOf jsHostname "https://example.com/192.168.1.1" = "example.com"
    ∧ hasDottedQuad "example.com" = false := by
  decide

/-- C6 amended: hasIpAddress is true exactly when the dotted-quad pattern
occurs anywhere in the full input string (path and query included, not just
the host); the host is parsed after prefixing https:// when the input does
not start with "http"; on a parse failure the host falls back to the
substring before the first slash and subdomainCount is derived from that
fallback host (it is not forced to 0); the extractor is total either way. -/
theorem C6_amended (parseHost : String → Option String) (url : String) :
    (extractMLFeatures parseHost url).hasIpAddress = hasDottedQuad url
    ∧ (parseHost (if "http".toList <+: url.toList then url else "https://" ++ url) = none →
        hostnameOf parseHost url = fallbackHost url
        ∧ (extractMLFeatures parseHost url).subdomainCount
            = (splitOnChar '.' (fallbackHost url).toList).length - 2)
    ∧ (∀ h, parseHost (if "http".toList <+: url.toList then url else "https://" ++ url) = some h →
        hostnameOf parseHost url = h
        ∧ (extractMLFeatures parseHost url).subdomainCount
            = (splitOnChar '.' h.toList).length - 2) := by
  refine ⟨rfl, ?_, ?_⟩
  · intro hnone
    have hh : hostnameOf parseHost url = fallbackHost url := by
      unfold hostnameOf
      rw [hnone]
    refine ⟨hh, ?_⟩
    show (splitOnChar '.' (hostnameOf parseHost url).toList).length - 2 = _
    rw [hh]
  · intro h hsome
    have hh : hostnameOf parseHost url = h := by
      unfold hostnameOf
      rw [hsome]
    refine ⟨hh, ?_⟩
    show (splitOnChar '.' (hostnameOf parseHost url).toList).length - 2 = _
    rw [hh]

/-- Witness for C6 at a totally unparseable input (the modelled parser
returns none): the fallback host is the substring before the first slash and
the subdomain count is derived from it — here 3, not 0. -/
theorem C6_witness :
    ((fun _ : String => (none : Option String))
        (if "http".toList <+: "a.b.c.d e/xyz".toList then "a.b.c.d e/xyz"
         else "https://" ++ "a.b.c.d e/xyz") = none)
    ∧ (hostnameOf (fun _ => none) "a.b.c.d e/xyz" = fallbackHost "a.b.c.d e/xyz"
      ∧ (extractMLFeatures (fun _ => none) "a.b.c.d e/xyz").subdomainCount
          = (splitOnChar '.' (fallbackHost "a.b.c.d e/xyz").toList).length - 2) :=
  ⟨rfl, (C6_amended (fun _ => none) "a.b.c.d e/xyz").2.1 rfl⟩

/-- C7 counterexample: for https://example.com/a the code computes pathDepth
1 (splitting the full string on slashes and subtracting 3), while the claim's
formula — segments of the input after removing scheme and host, minus 2,
floored at 0 — yields 0 under either reading of the remainder. -/
theorem C7_counterexample :
    (extractMLFeatures jsHostname "https://example.com/a").pathDepth = 1
    ∧ specPathDepth "a" = 0
    ∧ specPathDepth "/a" = 0
    ∧ (extractMLFeatures jsHostname "https://example.com/a").pathDepth ≠ specPathDepth "a"
    ∧ (extractMLFeatures jsHostname "https://example.com/a").pathDepth ≠ specPathDepth "/a" := by
  decide

/-- C7 amended: pathDepth equals the number of slash-separated segments of
the FULL input (scheme and host included) minus 3, floored at 0; and
subdomainCount equals the number of dot-separated labels of the parsed host
minus 2, floored at 0. -/
theorem C7_amended (parseHost : String → Option String) (url : String) :
    ((extractMLFeatures parseHost url).pathDepth : ℤ)
      = max 0 (((splitOnChar '/' url.toList).length : ℤ) - 3)
    ∧ ((extractMLFeatures parseHost url).subdomainCount : ℤ)
      = max 0 (((splitOnChar '.' (hostnameOf parseHost url).toList).length : ℤ) - 2) := by
  constructor
  · show (((splitOnChar '/' url.toList).length - 3 : ℕ) : ℤ) = _
    omega
  · show (((splitOnChar '.' (hostnameOf parseHost url).toList).length - 2 : ℕ) : ℤ) = _
    omega

/-- C8 counterexample: when every non-length rule already fires, the 100 cap
swallows the 74-to-76 increase entirely (both scores are 100, an increase of
0, not 15); and on an otherwise quiet feature set the 99-to-101 change adds
only the second length rule's 10 points (15 to 25), not 25. -/
theorem C8_counterexample :
    calculateMLThreatScore { allFireBase74 with urlLength := 76 } = 100
    ∧ calculateMLThreatScore allFireBase74 = 100
    ∧ ¬ (calculateMLThreatScore allFireBase74 + 15
          ≤ calculateMLThreatScore { allFireBase74 with urlLength := 76 })
    ∧ calculateMLThreatScore { quietFeatures99 with urlLength := 101 } = 25
    ∧ calculateMLThreatScore quietFeatures99 = 15
    ∧ ¬ (calculateMLThreatScore quietFeatures99 + 25
          ≤ calculateMLThreatScore { quietFeatures99 with urlLength := 101 }) := by
  norm_num [calculateMLThreatScore, allFireBase74, allFireFeatures, quietFeatures99]

/-- C8 amended: provided the eight non-length rule contributions total at
most 75 (so the 100 cap stays inactive), raising the length from 74 to 76
adds exactly 15, raising it from 74 to 101 adds exactly 25 in total, and the
step from 99 to 101 itself adds exactly the second rule's 10. -/
theorem C8_amended {α : Type} [LinearOrderedField α] (f : UrlFeatures α)
    (hbase : nonLengthScore f ≤ 75) :
    calculateMLThreatScore { f with urlLength := 76 }
        = calculateMLThreatScore { f with urlLength := 74 } + 15
    ∧ calculateMLThreatScore { f with urlLength := 101 }
        = calculateMLThreatScore { f with urlLength := 74 } + 25
    ∧ calculateMLThreatScore { f with urlLength := 101 }
        = calculateMLThreatScore { f with urlLength := 99 } + 10 := by
  rw [score_split { f with urlLength := 76 }, score_split { f with urlLength := 74 },
    score_split { f with urlLength := 101 }, score_split { f with urlLength := 99 }]
  simp only [nonLengthScore_update]
  norm_num
  omega

/-- Witness for C8 at the quiet feature set, whose non-length contributions
total 0, so the clamp stays inactive and all three equalities hold. -/
theorem C8_witness :
    nonLengthScore quietFeatures99 ≤ 75
    ∧ (calculateMLThreatScore { quietFeatures99 with urlLength := 76 }
          = calculateMLThreatScore { quietFeatures99 with urlLength := 74 } + 15
      ∧ calculateMLThreatScore { quietFeatures99 with urlLength := 101 }
          = calculateMLThreatScore { quietFeatures99 with urlLength := 74 } + 25
      ∧ calculateMLThreatScore { quietFeatures99 with urlLength := 101 }
          = calculateMLThreatScore { quietFeatures99 with urlLength := 99 } + 10) :=
  ⟨by simp [quiet_nonLengthScore],
   C8_amended quietFeatures99 (by simp [quiet_nonLengthScore])⟩

end URLScanner

namespace URLScanner

/-- C9: the classification unit is a total function whose result is
well-formed — threat probability and confidence in [0,1] and the threat score
in [0,100] — a failed historical lookup is indistinguishable from an absent
record, and the outcome of the pattern-store write never changes the returned
assessment.  The bound on the stored confidence is the ml_patterns CHECK
constraint (confidence_score between 0 and 1). -/
theorem C9_total_and_error_absorbing (parseHost : String → Option String)
    (url : String) (histResp : Except Unit (Option (MLPatternRow ℝ)))
    (u1 u2 : Except Unit Unit)
    (hconf : ∀ r : MLPatternRow ℝ, checkHistoricalPatterns histResp = some r →
      0 ≤ r.confidence_score ∧ r.confidence_score ≤ 1) :
    (0 ≤ (performMLClassification parseHost url histResp u1).threatProbability
      ∧ (performMLClassification parseHost url histResp u1).threatProbability ≤ 1)
    ∧ (0 ≤ (performMLClassification parseHost url histResp u1).confidence
      ∧ (performMLClassification parseHost url histResp u1).confidence ≤ 1)
    ∧ calculateMLThreatScore (extractMLFeatures parseHost url) ≤ 100
    ∧ performMLClassification parseHost url (Except.error ()) u1
        = performMLClassification parseHost url (Except.ok none) u1
    ∧ performMLClassification parseHost url histResp u1
        = performMLClassification parseHost url histResp u2 := by
  have hp0 : (0 : ℚ) ≤ (calculateMLThreatScore (extractMLFeatures parseHost url) : ℚ) / 100 := by
    positivity
  have hp1 : ((calculateMLThreatScore (extractMLFeatures parseHost url) : ℚ)) / 100 ≤ 1 := by
    rw [div_le_one (by norm_num)]
    exact_mod_cast score_le_100 _
  refine ⟨?_, ?_, score_le_100 _, ?_, ?_⟩
  · unfold performMLClassification
    cases u1 <;>
    · cases hh : checkHistoricalPatterns histResp with
      | none => exact ⟨hp0, hp1⟩
      | some r =>
        rcases hconf r hh with ⟨hc0, hc1⟩
        constructor
        · simp only [blend]
          positivity
        · simp only [blend]
          rw [div_le_one (by norm_num)]
          calc (calculateMLThreatScore (extractMLFeatures parseHost url) : ℚ) / 100
                + r.confidence_score ≤ 1 + 1 := add_le_add hp1 hc1
          _ = 2 := by norm_num
  · unfold performMLClassification
    cases u1 <;>
    · cases hh : checkHistoricalPatterns histResp with
      | none => exact ⟨by norm_num [blend], by norm_num [blend]⟩
      | some r => exact ⟨by norm_num [blend], by norm_num [blend]⟩
  · cases u1 <;> rfl
  · cases u1 <;> cases u2 <;> rfl

/-- Witness for C9 at a concrete scan of https://example.com with an absent
history (so the confidence hypothesis is vacuous), a successful and a failed
pattern-store write. -/
theorem C9_witness :
    (∀ r : MLPatternRow ℝ,
        checkHistoricalPatterns (Except.ok (none : Option (MLPatternRow ℝ))) = some r →
          0 ≤ r.confidence_score ∧ r.confidence_score ≤ 1)
    ∧ ((0 ≤ (performMLClassification jsHostname "https://example.com"
            (Except.ok none) (Except.ok ())).threatProbability
        ∧ (performMLClassification jsHostname "https://example.com"
            (Except.ok none) (Except.ok ())).threatProbability ≤ 1)
      ∧ (0 ≤ (performMLClassification jsHostname "https://example.com"
            (Except.ok none) (Except.ok ())).confidence
        ∧ (performMLClassification jsHostname "https://example.com"
            (Except.ok none) (Except.ok ())).confidence ≤ 1)
      ∧ calculateMLThreatScore (extractMLFeatures jsHostname "https://example.com") ≤ 100
      ∧ performMLClassification jsHostname "https://example.com"
            (Except.error ()) (Except.ok ())
          = performMLClassification jsHostname "https://example.com"
            (Except.ok none) (Except.ok ())
      ∧ performMLClassification jsHostname "https://example.com"
            (Except.ok none) (Except.ok ())
          = performMLClassification jsHostname "https://example.com"
            (Except.ok none) (Except.error ())) :=
  ⟨fun r h => Option.noConfusion h,
   C9_total_and_error_absorbing jsHostname "https://example.com" (Except.ok none)
     (Except.ok ()) (Except.error ()) (fun r h => Option.noConfusion h)⟩

/-- C10: the numDots feature is computed by the extractor but never
influences the threat score or the emitted categories — two feature sets that
differ only in their dot count score identically and emit identical category
sequences. -/
theorem C10_dot_count_irrelevant {α : Type} [LinearOrderedField α]
    (f : UrlFeatures α) (d : ℕ) :
    calculateMLThreatScore { f with numDots := d } = calculateMLThreatScore f
    ∧ computePredictedCategories { f with numDots := d } = computePredictedCategories f :=
  ⟨rfl, rfl⟩

end URLScanner
